import Mathlib

set_option maxHeartbeats 1000000

/-!
Shallow embedding of the dependency-free mock auth server
(`handleRequest` and its helpers): JSON values, user records, the
in-memory collection mirrored to a durable snapshot, the fresh-token
generator, and the five routed operations.  Randomness
(`crypto.randomUUID`) is modelled by an injective fresh-name supply
indexed by a counter carried in the server state; wall-clock readings
are carried on the request.  JS truthiness and strict equality are
embedded explicitly.
-/

/-- JSON values as produced by the body parser and manipulated by the
handlers. -/
inductive JVal where
  | null : JVal
  | bool (b : Bool) : JVal
  | num (n : Int) : JVal
  | str (s : String) : JVal
  | arr (xs : List JVal) : JVal
  | obj (fields : List (String × JVal)) : JVal

/-- Property access `body.k`: `some` when the key is present on an
object, `none` (JS `undefined`) otherwise. -/
def jsGet (j : JVal) (k : String) : Option JVal :=
  match j with
  | .obj fields => fields.lookup k
  | _ => none

/-- JS truthiness of a possibly-undefined value (`undefined`, `null`,
`false`, `0`, `""` are falsy). -/
def jsTruthyOpt (v : Option JVal) : Bool :=
  match v with
  | none => false
  | some .null => false
  | some (.bool b) => b
  | some (.num n) => !(n == 0)
  | some (.str s) => !(s == "")
  | some (.arr _) => true
  | some (.obj _) => true

/-- JS strict equality `===` between a value stored in the collection
and a freshly parsed value: structural on primitives, reference
equality (hence false across independent parses) on arrays/objects. -/
def jsStrictEqPrim (a b : JVal) : Bool :=
  match a, b with
  | .null, .null => true
  | .bool x, .bool y => x == y
  | .num x, .num y => x == y
  | .str x, .str y => x == y
  | _, _ => false

/-- The key list of a serialized JSON object body. -/
def jKeys (j : JVal) : List String :=
  match j with
  | .obj fields => fields.map (fun f => f.1)
  | _ => []

/-- `email.split('@')[0]`: the part of the string before the first `@`
(the whole string when there is none). -/
def localPart (s : String) : String :=
  String.mk (s.toList.takeWhile (fun c => !(c == '@')))

/-- `new URL(req.url, base).pathname` for an origin-form request
target: the raw url with its query (and fragment) component removed. -/
def stripQuery (u : String) : String :=
  String.mk (u.toList.takeWhile (fun c => !(c == '?' || c == '#')))

/-- JS `s.startsWith(pre)`, embedded on the character lists. -/
def strStartsWith (s pre : String) : Bool :=
  pre.data.isPrefixOf s.data

/-- The fresh-identifier supply modelling `crypto.randomUUID()`: the
n-th call of the process returns `uuid n`; injectivity models the
generator never repeating a value. -/
def uuid (n : Nat) : String :=
  String.mk (List.replicate n 'u')

/-- A stored user record, per the persisted data model: `email` and
`name` hold whatever JSON value signup stored, the two booleans may be
absent on records read back from the durable snapshot, and
`last_login_at` is nullable. -/
structure UserRecord where
  user_id : String
  name : JVal
  email : JVal
  created_at : String
  is_active : Option Bool
  email_verified : Option Bool
  last_login_at : Option String

/-- The bundle returned by `generateTokens`. -/
structure TokenPair where
  access_token : String
  refresh_token : String
  token_type : String
  expires_at : Int

/-- Process state: the in-memory collection, the durable snapshot
contents, the fresh-uuid counter, and a ghost log of every access
token issued so far (instrumentation for uniqueness statements). -/
structure ServerState where
  users : List UserRecord
  saved : List UserRecord
  ctr : Nat
  issuedAccess : List String

/-- A normalized request: method, raw url, authorization header, body
parse result (`none` = malformed JSON), and the ambient clock readings
at handling time. -/
structure Request where
  method : String
  url : String
  authorization : Option String
  body : Option JVal
  now : String
  epoch : Int

/-- A response: status code and optional JSON body. -/
structure Response where
  status : Nat
  body : Option JVal

/-- `generateTokens()`: two fresh uuids prefixed to signal type, a
constant token type, and advisory expiry metadata; the issued access
token is appended to the ghost log. -/
def generateTokens (st : ServerState) (epoch : Int) : TokenPair × ServerState :=
  let a := "mock_access_token_" ++ uuid st.ctr
  let r := "mock_refresh_token_" ++ uuid (st.ctr + 1)
  (⟨a, r, "bearer", epoch + 3600⟩,
   { st with ctr := st.ctr + 2, issuedAccess := st.issuedAccess ++ [a] })

/-- The refresh response body: the full token pair object. -/
def tokenPairJVal (tp : TokenPair) : JVal :=
  .obj [("access_token", .str tp.access_token),
        ("refresh_token", .str tp.refresh_token),
        ("token_type", .str tp.token_type),
        ("expires_at", .num tp.expires_at)]

def resp500 : Response :=
  ⟨500, some (.obj [("detail", .str "Internal server error")])⟩

def respInvalidJSON : Response :=
  ⟨400, some (.obj [("detail", .str "Invalid JSON")])⟩

def respEmptyFields : Response :=
  ⟨400, some (.obj [("detail", .str "Email and password are required")])⟩

/-- The fixed signup validation-error detail: a single entry with a
generic location tag, regardless of which fields are missing. -/
def missingFieldDetail : JVal :=
  .arr [.obj [("loc", .arr [.str "body", .str "field"]),
              ("msg", .str "field required"),
              ("type", .str "value_error.missing")]]

/-- POST /api/auth/signup. Destructuring a `null` body throws, which
the surrounding try/catch turns into a 500; `email.split` on a truthy
non-string likewise. -/
def signupH (st : ServerState) (req : Request) : ServerState × Response :=
  match req.body with
  | none => (st, respInvalidJSON)
  | some .null => (st, resp500)
  | some b =>
    let email := jsGet b "email"
    let password := jsGet b "password"
    let name := jsGet b "name"
    if email.isNone || password.isNone then
      (st, ⟨422, some (.obj [("detail", missingFieldDetail)])⟩)
    else if !jsTruthyOpt email || !jsTruthyOpt password then
      (st, respEmptyFields)
    else
      let emailJ := email.getD .null
      match (if jsTruthyOpt name then some (name.getD .null)
             else match emailJ with
               | .str s => some (.str (localPart s))
               | _ => none) with
      | none => (st, resp500)
      | some nm =>
        let newUser : UserRecord :=
          ⟨uuid st.ctr, nm, emailJ, req.now, some true, some true, none⟩
        let st1 : ServerState :=
          { st with users := st.users ++ [newUser], ctr := st.ctr + 1 }
        let st2 : ServerState := { st1 with saved := st1.users }
        let pair := generateTokens st2 req.epoch
        (pair.2, ⟨200, some (.obj [
          ("user_id", .str newUser.user_id),
          ("name", newUser.name),
          ("email", newUser.email),
          ("access_token", .str pair.1.access_token),
          ("refresh_token", .str pair.1.refresh_token)])⟩)

/-- The narrow signin success payload (no name/email). -/
def signinOK (uid : String) (tp : TokenPair) : Response :=
  ⟨200, some (.obj [("user_id", .str uid),
                    ("access_token", .str tp.access_token),
                    ("refresh_token", .str tp.refresh_token),
                    ("token_type", .str "bearer")])⟩

/-- POST /api/auth/signin: find the record by email, else fabricate a
ghost identifier that is never inserted into the collection. -/
def signinH (st : ServerState) (req : Request) : ServerState × Response :=
  match req.body with
  | none => (st, respInvalidJSON)
  | some .null => (st, resp500)
  | some b =>
    let email := jsGet b "email"
    let password := jsGet b "password"
    if email.isNone || password.isNone then
      (st, ⟨422, some (.obj [("detail", .str "Email and password are required")])⟩)
    else if !jsTruthyOpt email || !jsTruthyOpt password then
      (st, respEmptyFields)
    else
      let emailJ := email.getD .null
      match st.users.find? (fun u => jsStrictEqPrim u.email emailJ) with
      | some u =>
        let pair := generateTokens st req.epoch
        (pair.2, signinOK u.user_id pair.1)
      | none =>
        let uid := uuid st.ctr
        let st1 : ServerState := { st with ctr := st.ctr + 1 }
        let pair := generateTokens st1 req.epoch
        (pair.2, signinOK uid pair.1)

/-- POST /api/auth/refresh: any truthy token is accepted; a brand-new
pair is issued unconditionally. -/
def refreshH (st : ServerState) (req : Request) : ServerState × Response :=
  match req.body with
  | none => (st, respInvalidJSON)
  | some .null => (st, resp500)
  | some b =>
    let rt := jsGet b "refresh_token"
    if !jsTruthyOpt rt then
      (st, ⟨422, some (.obj [("detail", .str "Refresh token required")])⟩)
    else
      let pair := generateTokens st req.epoch
      (pair.2, ⟨200, some (tokenPairJVal pair.1)⟩)

/-- `x || true` as applied to the stored boolean fields of a
record. -/
def jsOrTrue (v : Option Bool) : Bool :=
  match v with
  | some b => if b then b else true
  | none => true

/-- The profile payload shaped by GET /api/auth/me. -/
def meProfile (u : UserRecord) : JVal :=
  .obj [("user_id", .str u.user_id),
        ("email", u.email),
        ("name", u.name),
        ("email_verified", .bool (jsOrTrue u.email_verified)),
        ("is_active", .bool (jsOrTrue u.is_active)),
        ("created_at", .str u.created_at),
        ("last_login_at", match u.last_login_at with
          | none => .null
          | some s => .str s)]

/-- The profile-fetch rejection condition:
`!authHeader || !authHeader.startsWith('Bearer ')`. -/
def unauthHdr (h : Option String) : Bool :=
  match h with
  | none => true
  | some s => s == "" || !(strStartsWith s "Bearer ")

/-- GET /api/auth/me: bearer-shaped header check only; first record of
the collection, else a fabricated administrator profile that is never
persisted. -/
def meH (st : ServerState) (req : Request) : ServerState × Response :=
  let unauth := unauthHdr req.authorization
  if unauth then
    (st, ⟨401, some (.obj [("detail", .str "Not authenticated")])⟩)
  else
    match st.users with
    | u :: _ => (st, ⟨200, some (meProfile u)⟩)
    | [] =>
      let fallback : UserRecord :=
        ⟨uuid st.ctr, .str "Mock Admin", .str "admin@treeex.io", req.now,
         some true, some true, some req.now⟩
      ({ st with ctr := st.ctr + 1 }, ⟨200, some (meProfile fallback)⟩)

/-- The top-level dispatcher: preflight, then routing on the method
and the query-stripped path. -/
def handleRequest (st : ServerState) (req : Request) : ServerState × Response :=
  if req.method == "OPTIONS" then
    (st, ⟨204, none⟩)
  else
    let pathname := stripQuery req.url
    if req.method == "GET" && pathname == "/health" then
      (st, ⟨200, some (.obj [("status", .str "running")])⟩)
    else if req.method == "POST" && pathname == "/api/auth/signup" then
      signupH st req
    else if req.method == "POST" && pathname == "/api/auth/signin" then
      signinH st req
    else if req.method == "POST" && pathname == "/api/auth/refresh" then
      refreshH st req
    else if req.method == "GET" && pathname == "/api/auth/me" then
      meH st req
    else
      (st, ⟨404, some (.obj [("detail", .str "Not found")])⟩)

/-- The state transition of one handled request. -/
def step (st : ServerState) (req : Request) : ServerState :=
  (handleRequest st req).1

/-- Handling a sequence of requests in order. -/
def run (st : ServerState) (reqs : List Request) : ServerState :=
  reqs.foldl step st

/-- Process start with an existing durable snapshot holding `us`. -/
def initLoaded (us : List UserRecord) : ServerState :=
  ⟨us, us, 0, []⟩

/-- Process start with no durable snapshot: initialize empty and write
it out. -/
def initState : ServerState := initLoaded []

/-- States reachable from an empty start within one process
lifetime. -/
def Reachable (st : ServerState) : Prop :=
  ∃ reqs, run initState reqs = st

/-- States reachable from a start with loaded snapshot `us`. -/
def ReachableFrom (us : List UserRecord) (st : ServerState) : Prop :=
  ∃ reqs, run (initLoaded us) reqs = st

/-- Field access on a response body. -/
def respField (r : Response) (k : String) : Option JVal :=
  match r.body with
  | some j => jsGet j k
  | none => none

/-- A signin request with string email and password. -/
def signinReq (e p now : String) (epoch : Int) : Request :=
  ⟨"POST", "/api/auth/signin", none,
   some (.obj [("email", .str e), ("password", .str p)]), now, epoch⟩

/-- A signup request with string email and password and no name. -/
def signupReq (e p now : String) (epoch : Int) : Request :=
  ⟨"POST", "/api/auth/signup", none,
   some (.obj [("email", .str e), ("password", .str p)]), now, epoch⟩

/-- A refresh request whose body lacks the token or carries it as a
string. -/
def refreshReq (rt : Option String) (now : String) (epoch : Int) : Request :=
  ⟨"POST", "/api/auth/refresh", none,
   some (.obj (match rt with
     | none => []
     | some s => [("refresh_token", .str s)])), now, epoch⟩

/-- A profile-fetch request with the given authorization header. -/
def meReq (auth : Option String) (now : String) (epoch : Int) : Request :=
  ⟨"GET", "/api/auth/me", auth, some (.obj []), now, epoch⟩

/-- The state after a successful no-name signup: the fresh record is
appended and the snapshot rewritten. -/
def signupNext (st : ServerState) (e now : String) : ServerState :=
  ⟨st.users ++ [⟨uuid st.ctr, .str (localPart e), .str e, now, some true, some true, none⟩],
   st.users ++ [⟨uuid st.ctr, .str (localPart e), .str e, now, some true, some true, none⟩],
   st.ctr + 1, st.issuedAccess⟩

/-- Invariant of every state reachable from the empty start: the
snapshot mirrors memory, stored identifiers are pairwise distinct
fresh names drawn below the counter, and every issued access token was
built from a name drawn below the counter. -/
structure StInv (st : ServerState) : Prop where
  saved_eq : st.saved = st.users
  ids_nodup : (st.users.map (fun u => u.user_id)).Nodup
  ids_fresh : ∀ u ∈ st.users, ∃ k, k < st.ctr ∧ u.user_id = uuid k
  tok_fresh : ∀ t ∈ st.issuedAccess, ∃ k, k < st.ctr ∧
    t = "mock_access_token_" ++ uuid k

/-- Every access token issued so far in this process was built from a
fresh name drawn below the counter. -/
def TokInv (st : ServerState) : Prop :=
  ∀ t ∈ st.issuedAccess, ∃ k, k < st.ctr ∧ t = "mock_access_token_" ++ uuid k

/-- The number of entries of the `detail` list of a response (0 when
the body has no array-valued `detail`). -/
def detailLen (r : Response) : Nat :=
  match respField r "detail" with
  | some (.arr xs) => xs.length
  | _ => 0

/-- A record as it can sit in a loaded durable snapshot: the
email_verified flag is present and false. -/
def falseVerifiedRec : UserRecord :=
  ⟨"uid-1", .str "Bob", .str "b@c.io", "2020-01-01T00:00:00Z",
   some true, some false, none⟩

/-! ## Basic lemmas about the helpers -/

theorem takeWhile_idem {α} (p : α → Bool) (l : List α) :
    (l.takeWhile p).takeWhile p = l.takeWhile p := by
  induction l with
  | nil => rfl
  | cons a t ih =>
    by_cases h : p a
    · simp [List.takeWhile_cons, h, ih]
    · simp [List.takeWhile_cons, h]

theorem stripQuery_idem (u : String) :
    stripQuery (stripQuery u) = stripQuery u :=
  congrArg String.mk (takeWhile_idem _ _)

theorem uuid_inj : Function.Injective uuid := by
  intro a b h
  have h2 := congrArg (fun s => s.data.length) h
  simpa [uuid] using h2

theorem uuid_ne_of_lt {k n : Nat} (h : k < n) : uuid k ≠ uuid n :=
  fun he => absurd (uuid_inj he) (Nat.ne_of_lt h)

theorem str_append_cancel {p a b : String} (h : p ++ a = p ++ b) : a = b := by
  have hd : p.data ++ a.data = p.data ++ b.data := by
    simpa [String.data_append] using congrArg String.data h
  have h2 := List.append_cancel_left hd
  cases a; cases b; exact congrArg String.mk h2

/-! ## State preservation of the non-mutating handlers -/

theorem signinH_state (st : ServerState) (req : Request) :
    (signinH st req).1.users = st.users ∧ (signinH st req).1.saved = st.saved := by
  unfold signinH
  split
  · exact ⟨rfl, rfl⟩
  · exact ⟨rfl, rfl⟩
  · dsimp only
    split
    · exact ⟨rfl, rfl⟩
    · split
      · exact ⟨rfl, rfl⟩
      · split
        · exact ⟨rfl, rfl⟩
        · exact ⟨rfl, rfl⟩

theorem refreshH_state (st : ServerState) (req : Request) :
    (refreshH st req).1.users = st.users ∧ (refreshH st req).1.saved = st.saved := by
  unfold refreshH
  split
  · exact ⟨rfl, rfl⟩
  · exact ⟨rfl, rfl⟩
  · dsimp only
    split
    · exact ⟨rfl, rfl⟩
    · exact ⟨rfl, rfl⟩

theorem meH_state (st : ServerState) (req : Request) :
    (meH st req).1.users = st.users ∧ (meH st req).1.saved = st.saved := by
  unfold meH
  dsimp only
  split
  · exact ⟨rfl, rfl⟩
  · split
    · exact ⟨rfl, rfl⟩
    · exact ⟨rfl, rfl⟩

theorem handle_state_of_not_signup (st : ServerState) (req : Request)
    (h : ¬(req.method = "POST" ∧ stripQuery req.url = "/api/auth/signup")) :
    (handleRequest st req).1.users = st.users ∧
    (handleRequest st req).1.saved = st.saved := by
  unfold handleRequest
  split
  · exact ⟨rfl, rfl⟩
  · dsimp only
    split
    · exact ⟨rfl, rfl⟩
    · split
      · rename_i hc
        exact absurd (by simpa [Bool.and_eq_true] using hc) h
      · split
        · exact signinH_state st req
        · split
          · exact refreshH_state st req
          · split
            · exact meH_state st req
            · exact ⟨rfl, rfl⟩

/-! ## Growth lemmas -/

theorem generateTokens_snd (st : ServerState) (ep : Int) :
    (generateTokens st ep).2 =
      { st with ctr := st.ctr + 2,
                issuedAccess := st.issuedAccess ++ ["mock_access_token_" ++ uuid st.ctr] } :=
  rfl

theorem signupH_users_append (st : ServerState) (req : Request) :
    ∃ t, (signupH st req).1.users = st.users ++ t := by
  unfold signupH
  split
  · exact ⟨[], (List.append_nil _).symm⟩
  · exact ⟨[], (List.append_nil _).symm⟩
  · dsimp only
    split
    · exact ⟨[], (List.append_nil _).symm⟩
    · split
      · exact ⟨[], (List.append_nil _).symm⟩
      · split
        · exact ⟨[], (List.append_nil _).symm⟩
        · exact ⟨_, rfl⟩

theorem handle_users_append (st : ServerState) (req : Request) :
    ∃ t, (handleRequest st req).1.users = st.users ++ t := by
  unfold handleRequest
  split
  · exact ⟨[], (List.append_nil _).symm⟩
  · dsimp only
    split
    · exact ⟨[], (List.append_nil _).symm⟩
    · split
      · exact signupH_users_append st req
      · split
        · exact ⟨[], by rw [(signinH_state st req).1, List.append_nil]⟩
        · split
          · exact ⟨[], by rw [(refreshH_state st req).1, List.append_nil]⟩
          · split
            · exact ⟨[], by rw [(meH_state st req).1, List.append_nil]⟩
            · exact ⟨[], (List.append_nil _).symm⟩

/-! ## The reachability invariant -/


theorem nat_lt_add_two {a b : Nat} (h : a < b) : a < b + 2 := by omega

theorem nat_self_lt_add_two (a : Nat) : a < a + 2 := by omega

theorem nat_lt_add_one {a b : Nat} (h : a < b) : a < b + 1 := by omega

theorem stinv_generateTokens (st : ServerState) (ep : Int) (h : StInv st) :
    StInv (generateTokens st ep).2 := by
  refine ⟨h.saved_eq, h.ids_nodup, ?_, ?_⟩
  · intro u hu
    obtain ⟨k, hk, he⟩ := h.ids_fresh u hu
    exact ⟨k, nat_lt_add_two hk, he⟩
  · intro t ht
    have ht2 : t ∈ st.issuedAccess ++ ["mock_access_token_" ++ uuid st.ctr] := ht
    rcases List.mem_append.1 ht2 with hmem | hmem
    · obtain ⟨k, hk, he⟩ := h.tok_fresh t hmem
      exact ⟨k, nat_lt_add_two hk, he⟩
    · exact ⟨st.ctr, nat_self_lt_add_two st.ctr, by simpa using hmem⟩

theorem stinv_ctr_bump (st : ServerState) (h : StInv st) :
    StInv { st with ctr := st.ctr + 1 } := by
  refine ⟨h.saved_eq, h.ids_nodup, ?_, ?_⟩
  · intro u hu
    obtain ⟨k, hk, he⟩ := h.ids_fresh u hu
    exact ⟨k, nat_lt_add_one hk, he⟩
  · intro t ht
    obtain ⟨k, hk, he⟩ := h.tok_fresh t ht
    exact ⟨k, nat_lt_add_one hk, he⟩

theorem stinv_append_fresh (st : ServerState) (nm em : JVal) (now : String)
    (h : StInv st) :
    StInv ⟨st.users ++ [⟨uuid st.ctr, nm, em, now, some true, some true, none⟩],
           st.users ++ [⟨uuid st.ctr, nm, em, now, some true, some true, none⟩],
           st.ctr + 1, st.issuedAccess⟩ := by
  refine ⟨rfl, ?_, ?_, ?_⟩
  · show ((st.users ++ [(⟨uuid st.ctr, nm, em, now, some true, some true,
        none⟩ : UserRecord)]).map (fun u => u.user_id)).Nodup
    rw [List.map_append, List.nodup_append]
    refine ⟨h.ids_nodup, List.nodup_singleton _, ?_⟩
    intro a ha hb
    obtain ⟨u, hu, hua⟩ := List.mem_map.1 ha
    obtain ⟨k, hk, he⟩ := h.ids_fresh u hu
    have hb2 : a = uuid st.ctr := by simpa using hb
    have hcontra : uuid k = uuid st.ctr := by rw [← he, hua, hb2]
    exact absurd hcontra (uuid_ne_of_lt hk)
  · intro u hu
    have hu2 : u ∈ st.users ++ [(⟨uuid st.ctr, nm, em, now, some true, some true, none⟩ : UserRecord)] := hu
    rcases List.mem_append.1 hu2 with hmem | hmem
    · obtain ⟨k, hk, he⟩ := h.ids_fresh u hmem
      exact ⟨k, nat_lt_add_one hk, he⟩
    · have he : u = ⟨uuid st.ctr, nm, em, now, some true, some true, none⟩ := by
        simpa using hmem
      exact ⟨st.ctr, Nat.lt_succ_self _, by rw [he]⟩
  · intro t ht
    obtain ⟨k, hk, he⟩ := h.tok_fresh t ht
    exact ⟨k, nat_lt_add_one hk, he⟩

theorem stinv_signupH (st : ServerState) (req : Request) (h : StInv st) :
    StInv (signupH st req).1 := by
  unfold signupH
  split
  · exact h
  · exact h
  · rename_i b hbn hbody
    dsimp only
    split
    · exact h
    · split
      · exact h
      · split
        · exact h
        · rename_i scn nmv hnm
          show StInv (generateTokens
            ⟨st.users ++ [⟨uuid st.ctr, nmv, (jsGet b "email").getD .null,
               req.now, some true, some true, none⟩],
             st.users ++ [⟨uuid st.ctr, nmv, (jsGet b "email").getD .null,
               req.now, some true, some true, none⟩],
             st.ctr + 1, st.issuedAccess⟩ req.epoch).2
          exact stinv_generateTokens _ _ (stinv_append_fresh st _ _ _ h)

theorem stinv_signinH (st : ServerState) (req : Request) (h : StInv st) :
    StInv (signinH st req).1 := by
  unfold signinH
  split
  · exact h
  · exact h
  · dsimp only
    split
    · exact h
    · split
      · exact h
      · split
        · show StInv (generateTokens st req.epoch).2
          exact stinv_generateTokens _ _ h
        · show StInv (generateTokens { st with ctr := st.ctr + 1 } req.epoch).2
          exact stinv_generateTokens _ _ (stinv_ctr_bump _ h)

theorem stinv_refreshH (st : ServerState) (req : Request) (h : StInv st) :
    StInv (refreshH st req).1 := by
  unfold refreshH
  split
  · exact h
  · exact h
  · dsimp only
    split
    · exact h
    · show StInv (generateTokens st req.epoch).2
      exact stinv_generateTokens _ _ h

theorem stinv_meH (st : ServerState) (req : Request) (h : StInv st) :
    StInv (meH st req).1 := by
  unfold meH
  dsimp only
  split
  · exact h
  · split
    · exact h
    · exact stinv_ctr_bump _ h

theorem stinv_handle (st : ServerState) (req : Request) (h : StInv st) :
    StInv (handleRequest st req).1 := by
  unfold handleRequest
  split
  · exact h
  · dsimp only
    split
    · exact h
    · split
      · exact stinv_signupH st req h
      · split
        · exact stinv_signinH st req h
        · split
          · exact stinv_refreshH st req h
          · split
            · exact stinv_meH st req h
            · exact h

theorem stinv_initState : StInv initState := by
  refine ⟨rfl, List.nodup_nil, ?_, ?_⟩
  · intro u hu
    simp [initState, initLoaded] at hu
  · intro t ht
    simp [initState, initLoaded] at ht

theorem stinv_run (reqs : List Request) (st : ServerState) (h : StInv st) :
    StInv (run st reqs) := by
  induction reqs generalizing st with
  | nil => exact h
  | cons r rs ih => exact ih (step st r) (stinv_handle st r h)

theorem stinv_of_reachable (st : ServerState) (h : Reachable st) : StInv st := by
  obtain ⟨reqs, hr⟩ := h
  exact hr ▸ stinv_run reqs initState stinv_initState

/-! ## Dispatch lemmas -/

theorem dispatch_signup (st : ServerState) (req : Request)
    (hm : req.method = "POST") (hp : stripQuery req.url = "/api/auth/signup") :
    handleRequest st req = signupH st req := by
  unfold handleRequest
  simp [hm, hp]

theorem dispatch_signin (st : ServerState) (req : Request)
    (hm : req.method = "POST") (hp : stripQuery req.url = "/api/auth/signin") :
    handleRequest st req = signinH st req := by
  unfold handleRequest
  simp [hm, hp]

theorem dispatch_refresh (st : ServerState) (req : Request)
    (hm : req.method = "POST") (hp : stripQuery req.url = "/api/auth/refresh") :
    handleRequest st req = refreshH st req := by
  unfold handleRequest
  simp [hm, hp]

theorem dispatch_me (st : ServerState) (req : Request)
    (hm : req.method = "GET") (hp : stripQuery req.url = "/api/auth/me") :
    handleRequest st req = meH st req := by
  unfold handleRequest
  simp [hm, hp]

theorem stripQuery_lit_signup : stripQuery "/api/auth/signup" = "/api/auth/signup" := by decide

theorem stripQuery_lit_signin : stripQuery "/api/auth/signin" = "/api/auth/signin" := by decide

theorem stripQuery_lit_refresh : stripQuery "/api/auth/refresh" = "/api/auth/refresh" := by decide

theorem stripQuery_lit_me : stripQuery "/api/auth/me" = "/api/auth/me" := by decide

/-! ## Evaluation of the handlers on well-formed requests -/

theorem signinH_eval (st : ServerState) (e p now : String) (ep : Int)
    (he : e ≠ "") (hp : p ≠ "") :
    signinH st (signinReq e p now ep) =
      match st.users.find? (fun u => jsStrictEqPrim u.email (.str e)) with
      | some u => ((generateTokens st ep).2, signinOK u.user_id (generateTokens st ep).1)
      | none => ((generateTokens { st with ctr := st.ctr + 1 } ep).2,
                 signinOK (uuid st.ctr) (generateTokens { st with ctr := st.ctr + 1 } ep).1) := by
  unfold signinH signinReq
  simp [jsGet, List.lookup, jsTruthyOpt, he, hp]


theorem signupH_eval (st : ServerState) (e p now : String) (ep : Int)
    (he : e ≠ "") (hp : p ≠ "") :
    signupH st (signupReq e p now ep) =
      ((generateTokens (signupNext st e now) ep).2,
       ⟨200, some (.obj [
         ("user_id", .str (uuid st.ctr)),
         ("name", .str (localPart e)),
         ("email", .str e),
         ("access_token", .str (generateTokens (signupNext st e now) ep).1.access_token),
         ("refresh_token", .str (generateTokens (signupNext st e now) ep).1.refresh_token)])⟩) := by
  unfold signupH signupReq signupNext
  simp [jsGet, List.lookup, jsTruthyOpt, he, hp]

theorem refreshH_eval_ok (st : ServerState) (s now : String) (ep : Int)
    (hs : s ≠ "") :
    refreshH st (refreshReq (some s) now ep) =
      ((generateTokens st ep).2, ⟨200, some (tokenPairJVal (generateTokens st ep).1)⟩) := by
  unfold refreshH refreshReq
  simp [jsGet, List.lookup, jsTruthyOpt, hs]

theorem refreshH_eval_missing (st : ServerState) (now : String) (ep : Int) :
    refreshH st (refreshReq none now ep) =
      (st, ⟨422, some (.obj [("detail", .str "Refresh token required")])⟩) := by
  unfold refreshH refreshReq
  simp [jsGet, List.lookup, jsTruthyOpt]

theorem refreshH_eval_empty (st : ServerState) (now : String) (ep : Int) :
    refreshH st (refreshReq (some "") now ep) =
      (st, ⟨422, some (.obj [("detail", .str "Refresh token required")])⟩) := by
  unfold refreshH refreshReq
  simp [jsGet, List.lookup, jsTruthyOpt]

theorem meH_eval_unauth (st : ServerState) (h : Option String) (now : String)
    (ep : Int) (hu : unauthHdr h = true) :
    meH st (meReq h now ep) =
      (st, ⟨401, some (.obj [("detail", .str "Not authenticated")])⟩) := by
  unfold meH meReq
  simp [hu]

theorem meH_eval_auth (st : ServerState) (h : Option String) (now : String)
    (ep : Int) (hu : unauthHdr h = false) :
    meH st (meReq h now ep) =
      match st.users with
      | u :: _ => (st, ⟨200, some (meProfile u)⟩)
      | [] => ({ st with ctr := st.ctr + 1 },
               ⟨200, some (meProfile ⟨uuid st.ctr, .str "Mock Admin",
                 .str "admin@treeex.io", now, some true, some true, some now⟩)⟩) := by
  unfold meH meReq
  simp [hu]

theorem unauthHdr_iff (h : Option String) :
    unauthHdr h = true ↔ ∀ s, h = some s → strStartsWith s "Bearer " = false := by
  cases h with
  | none => simp [unauthHdr]
  | some s =>
    by_cases hs : s = ""
    · subst hs
      simp [unauthHdr]
      decide
    · simp [unauthHdr, hs]

/-! ## Token freshness invariant (holds from any loaded snapshot) -/


theorem tokinv_generateTokens (st : ServerState) (ep : Int) (h : TokInv st) :
    TokInv (generateTokens st ep).2 := by
  intro t ht
  have ht2 : t ∈ st.issuedAccess ++ ["mock_access_token_" ++ uuid st.ctr] := ht
  rcases List.mem_append.1 ht2 with hmem | hmem
  · obtain ⟨k, hk, he⟩ := h t hmem
    exact ⟨k, nat_lt_add_two hk, he⟩
  · exact ⟨st.ctr, nat_self_lt_add_two st.ctr, by simpa using hmem⟩

theorem tokinv_ctr_bump (st : ServerState) (h : TokInv st) :
    TokInv { st with ctr := st.ctr + 1 } := by
  intro t ht
  obtain ⟨k, hk, he⟩ := h t ht
  exact ⟨k, nat_lt_add_one hk, he⟩

theorem tokinv_signupH (st : ServerState) (req : Request) (h : TokInv st) :
    TokInv (signupH st req).1 := by
  unfold signupH
  split
  · exact h
  · exact h
  · rename_i b hbn hbody
    dsimp only
    split
    · exact h
    · split
      · exact h
      · split
        · exact h
        · rename_i scn nmv hnm
          show TokInv (generateTokens
            ⟨st.users ++ [⟨uuid st.ctr, nmv, (jsGet b "email").getD .null,
               req.now, some true, some true, none⟩],
             st.users ++ [⟨uuid st.ctr, nmv, (jsGet b "email").getD .null,
               req.now, some true, some true, none⟩],
             st.ctr + 1, st.issuedAccess⟩ req.epoch).2
          refine tokinv_generateTokens _ _ ?_
          intro t ht
          obtain ⟨k, hk, he⟩ := h t ht
          exact ⟨k, nat_lt_add_one hk, he⟩

theorem tokinv_signinH (st : ServerState) (req : Request) (h : TokInv st) :
    TokInv (signinH st req).1 := by
  unfold signinH
  split
  · exact h
  · exact h
  · dsimp only
    split
    · exact h
    · split
      · exact h
      · split
        · show TokInv (generateTokens st req.epoch).2
          exact tokinv_generateTokens _ _ h
        · show TokInv (generateTokens { st with ctr := st.ctr + 1 } req.epoch).2
          exact tokinv_generateTokens _ _ (tokinv_ctr_bump _ h)

theorem tokinv_refreshH (st : ServerState) (req : Request) (h : TokInv st) :
    TokInv (refreshH st req).1 := by
  unfold refreshH
  split
  · exact h
  · exact h
  · dsimp only
    split
    · exact h
    · show TokInv (generateTokens st req.epoch).2
      exact tokinv_generateTokens _ _ h

theorem tokinv_meH (st : ServerState) (req : Request) (h : TokInv st) :
    TokInv (meH st req).1 := by
  unfold meH
  dsimp only
  split
  · exact h
  · split
    · exact h
    · exact tokinv_ctr_bump _ h

theorem tokinv_handle (st : ServerState) (req : Request) (h : TokInv st) :
    TokInv (handleRequest st req).1 := by
  unfold handleRequest
  split
  · exact h
  · dsimp only
    split
    · exact h
    · split
      · exact tokinv_signupH st req h
      · split
        · exact tokinv_signinH st req h
        · split
          · exact tokinv_refreshH st req h
          · split
            · exact tokinv_meH st req h
            · exact h

theorem tokinv_run (reqs : List Request) (st : ServerState) (h : TokInv st) :
    TokInv (run st reqs) := by
  induction reqs generalizing st with
  | nil => exact h
  | cons r rs ih => exact ih (step st r) (tokinv_handle st r h)

theorem tokinv_of_reachableFrom (us : List UserRecord) (st : ServerState)
    (h : ReachableFrom us st) : TokInv st := by
  obtain ⟨reqs, hr⟩ := h
  refine hr ▸ tokinv_run reqs (initLoaded us) ?_
  intro t ht
  simp [initLoaded] at ht

/-! ## Find-preservation across a run -/

theorem find?_append_left {p : UserRecord → Bool} {l1 l2 : List UserRecord}
    {u : UserRecord} (h : l1.find? p = some u) :
    (l1 ++ l2).find? p = some u := by
  rw [List.find?_append, h]
  rfl

theorem run_preserves_find? (reqs : List Request) (st : ServerState)
    {p : UserRecord → Bool} {u : UserRecord} (h : st.users.find? p = some u) :
    (run st reqs).users.find? p = some u := by
  induction reqs generalizing st with
  | nil => exact h
  | cons r rs ih =>
    obtain ⟨t, ht⟩ := handle_users_append st r
    have h2 : (step st r).users.find? p = some u := by
      rw [step, ht]
      exact find?_append_left h
    exact ih (step st r) h2

theorem jsOrTrue_true (v : Option Bool) : jsOrTrue v = true := by
  cases v with
  | none => rfl
  | some b => cases b <;> rfl


/-! ## Claim theorems -/

/-- Claim C1: for every signin request whose body contains a non-empty
email and a non-empty password, the response is success (200) and
contains a user_id, regardless of whether any record with that email
exists (the server state is arbitrary) and regardless of the password
value (the response for two different non-empty passwords is
identical); no password verification occurs under any
circumstance. -/
theorem signin_permissive_success (st : ServerState) (e p p2 now : String)
    (ep : Int) (he : e ≠ "") (hp : p ≠ "") (hp2 : p2 ≠ "") :
    (handleRequest st (signinReq e p now ep)).2.status = 200 ∧
    (∃ v, respField (handleRequest st (signinReq e p now ep)).2 "user_id"
      = some (.str v)) ∧
    (handleRequest st (signinReq e p now ep)).2
      = (handleRequest st (signinReq e p2 now ep)).2 := by
  rw [dispatch_signin _ _ rfl stripQuery_lit_signin,
      dispatch_signin _ _ rfl stripQuery_lit_signin,
      signinH_eval st e p now ep he hp, signinH_eval st e p2 now ep he hp2]
  cases hfind : st.users.find? (fun u => jsStrictEqPrim u.email (.str e)) with
  | some u =>
    refine ⟨?_, ⟨u.user_id, ?_⟩, ?_⟩ <;>
      simp [hfind, signinOK, respField, jsGet, List.lookup]
  | none =>
    refine ⟨?_, ⟨uuid st.ctr, ?_⟩, ?_⟩ <;>
      simp [hfind, signinOK, respField, jsGet, List.lookup]

theorem signin_permissive_success_witness :
    ("ghost@nowhere.io" : String) ≠ "" ∧ ("pw1" : String) ≠ "" ∧
    ("pw2" : String) ≠ "" ∧
    (handleRequest initState (signinReq "ghost@nowhere.io" "pw1" "t" 0)).2.status = 200 ∧
    (∃ v, respField (handleRequest initState
      (signinReq "ghost@nowhere.io" "pw1" "t" 0)).2 "user_id" = some (.str v)) ∧
    (handleRequest initState (signinReq "ghost@nowhere.io" "pw1" "t" 0)).2
      = (handleRequest initState (signinReq "ghost@nowhere.io" "pw2" "t" 0)).2 := by
  have h := signin_permissive_success initState "ghost@nowhere.io" "pw1" "pw2" "t" 0
    (by decide) (by decide) (by decide)
  exact ⟨by decide, by decide, by decide, h.1, h.2.1, h.2.2⟩

/-- Claim C9: for every request, the selected route and the response
depend only on the method and the query-stripped path; appending a
query string to a recognized path (for example POST
/api/auth/signin?ref=google) yields the same outcome as the bare
path. -/
theorem dispatch_query_insensitive (st : ServerState) (m u : String)
    (a : Option String) (b : Option JVal) (now : String) (ep : Int) :
    handleRequest st ⟨m, u, a, b, now, ep⟩
      = handleRequest st ⟨m, stripQuery u, a, b, now, ep⟩ ∧
    handleRequest st ⟨"POST", "/api/auth/signin?ref=google", a, b, now, ep⟩
      = handleRequest st ⟨"POST", "/api/auth/signin", a, b, now, ep⟩ := by
  have hmain : ∀ (m2 u2 : String),
      handleRequest st ⟨m2, u2, a, b, now, ep⟩
        = handleRequest st ⟨m2, stripQuery u2, a, b, now, ep⟩ := by
    intro m2 u2
    unfold handleRequest
    dsimp only
    rw [stripQuery_idem]
    rfl
  refine ⟨hmain m u, ?_⟩
  have h2 := hmain "POST" "/api/auth/signin?ref=google"
  rw [h2]
  have h3 : stripQuery "/api/auth/signin?ref=google" = "/api/auth/signin" := by
    decide
  rw [h3]

/-- Claim C3: every successful signin response carries exactly the
keys user_id, access_token, refresh_token, token_type — in particular
never name or email — while every successful signup response carries
exactly user_id, name, email, access_token and refresh_token. -/
theorem response_schemas_narrow (st : ServerState) (req : Request) :
    ((signinH st req).2.status = 200 →
      ∃ j, (signinH st req).2.body = some j ∧
        jKeys j = ["user_id", "access_token", "refresh_token", "token_type"] ∧
        "name" ∉ jKeys j ∧ "email" ∉ jKeys j) ∧
    ((signupH st req).2.status = 200 →
      ∃ j, (signupH st req).2.body = some j ∧
        jKeys j = ["user_id", "name", "email", "access_token", "refresh_token"]) := by
  constructor
  · unfold signinH
    split
    · intro h
      exact absurd h (by simp [respInvalidJSON])
    · intro h
      exact absurd h (by simp [resp500])
    · dsimp only
      split
      · intro h
        exact absurd h (by simp)
      · split
        · intro h
          exact absurd h (by simp [respEmptyFields])
        · split
          · intro h2
            exact ⟨_, rfl, rfl, by simp [jKeys], by simp [jKeys]⟩
          · intro h2
            exact ⟨_, rfl, rfl, by simp [jKeys], by simp [jKeys]⟩
  · unfold signupH
    split
    · intro h
      exact absurd h (by simp [respInvalidJSON])
    · intro h
      exact absurd h (by simp [resp500])
    · dsimp only
      split
      · intro h
        exact absurd h (by simp)
      · split
        · intro h
          exact absurd h (by simp [respEmptyFields])
        · split
          · intro h
            exact absurd h (by simp [resp500])
          · intro h2
            exact ⟨_, rfl, rfl⟩

theorem response_schemas_narrow_witness :
    (∃ j, (signinH initState (signinReq "w@x.io" "pw" "t" 0)).2.body = some j ∧
      jKeys j = ["user_id", "access_token", "refresh_token", "token_type"] ∧
      "name" ∉ jKeys j ∧ "email" ∉ jKeys j) ∧
    (∃ j, (signupH initState (signupReq "w@x.io" "pw" "t" 0)).2.body = some j ∧
      jKeys j = ["user_id", "name", "email", "access_token", "refresh_token"]) :=
  ⟨(response_schemas_narrow initState (signinReq "w@x.io" "pw" "t" 0)).1 rfl,
   (response_schemas_narrow initState (signupReq "w@x.io" "pw" "t" 0)).2 rfl⟩

/-- Claim C4: for an email first created via a valid signup (no record
with that email exists yet), any subsequent signin with that email
within the same process lifetime — after arbitrarily many intervening
requests — succeeds and returns the same user_id the signup
returned. -/
theorem signup_signin_user_id_stable (st : ServerState) (e p p2 now now2 : String)
    (ep ep2 : Int) (reqs : List Request)
    (he : e ≠ "") (hp : p ≠ "") (hp2 : p2 ≠ "")
    (hfresh : st.users.find? (fun u => jsStrictEqPrim u.email (.str e)) = none) :
    (handleRequest st (signupReq e p now ep)).2.status = 200 ∧
    respField (handleRequest st (signupReq e p now ep)).2 "user_id"
      = some (.str (uuid st.ctr)) ∧
    (handleRequest (run (handleRequest st (signupReq e p now ep)).1 reqs)
      (signinReq e p2 now2 ep2)).2.status = 200 ∧
    respField (handleRequest (run (handleRequest st (signupReq e p now ep)).1 reqs)
      (signinReq e p2 now2 ep2)).2 "user_id" = some (.str (uuid st.ctr)) := by
  rw [dispatch_signup _ _ rfl stripQuery_lit_signup,
      signupH_eval st e p now ep he hp]
  have husers : (generateTokens (signupNext st e now) ep).2.users
      = st.users ++ [⟨uuid st.ctr, .str (localPart e), .str e, now,
          some true, some true, none⟩] := rfl
  have hfind1 : ((generateTokens (signupNext st e now) ep).2.users).find?
      (fun u => jsStrictEqPrim u.email (.str e))
      = some ⟨uuid st.ctr, .str (localPart e), .str e, now,
          some true, some true, none⟩ := by
    rw [husers, List.find?_append, hfresh]
    simp [List.find?, jsStrictEqPrim]
  have hfind2 := run_preserves_find? reqs _ hfind1
  rw [dispatch_signin _ _ rfl stripQuery_lit_signin,
      signinH_eval _ e p2 now2 ep2 he hp2, hfind2]
  refine ⟨rfl, ?_, rfl, ?_⟩ <;>
    simp [respField, jsGet, List.lookup, signinOK]

theorem signup_signin_user_id_stable_witness :
    ("al@ex.io" : String) ≠ "" ∧ ("pw" : String) ≠ "" ∧ ("pw9" : String) ≠ "" ∧
    initState.users.find? (fun u => jsStrictEqPrim u.email (.str "al@ex.io")) = none ∧
    (handleRequest initState (signupReq "al@ex.io" "pw" "t1" 0)).2.status = 200 ∧
    respField (handleRequest initState (signupReq "al@ex.io" "pw" "t1" 0)).2 "user_id"
      = some (.str (uuid initState.ctr)) ∧
    (handleRequest (run (handleRequest initState (signupReq "al@ex.io" "pw" "t1" 0)).1
      [refreshReq (some "r") "t2" 5])
      (signinReq "al@ex.io" "pw9" "t3" 9)).2.status = 200 ∧
    respField (handleRequest (run (handleRequest initState (signupReq "al@ex.io" "pw" "t1" 0)).1
      [refreshReq (some "r") "t2" 5])
      (signinReq "al@ex.io" "pw9" "t3" 9)).2 "user_id" = some (.str (uuid initState.ctr)) := by
  have h := signup_signin_user_id_stable initState "al@ex.io" "pw" "pw9" "t1" "t3" 0 9
    [refreshReq (some "r") "t2" 5] (by decide) (by decide) (by decide) rfl
  exact ⟨by decide, by decide, by decide, rfl, h.1, h.2.1, h.2.2.1, h.2.2.2⟩

/-- Claim C2: no operation other than signup mutates the collection or
the durable snapshot — any request that does not dispatch to signup
leaves both unchanged — and the user_id fabricated by signin for an
unknown email does not appear in the persisted collection
afterward. -/
theorem only_signup_mutates (st st2 : ServerState) (req : Request)
    (e p2 now : String) (ep : Int)
    (hns : ¬(req.method = "POST" ∧ stripQuery req.url = "/api/auth/signup"))
    (hreach : Reachable st2) (he : e ≠ "") (hp : p2 ≠ "")
    (hnof : st2.users.find? (fun u => jsStrictEqPrim u.email (.str e)) = none) :
    ((handleRequest st req).1.users = st.users ∧
     (handleRequest st req).1.saved = st.saved) ∧
    (respField (handleRequest st2 (signinReq e p2 now ep)).2 "user_id"
       = some (.str (uuid st2.ctr)) ∧
     (uuid st2.ctr) ∉
       ((handleRequest st2 (signinReq e p2 now ep)).1.saved.map
         (fun u => u.user_id))) := by
  refine ⟨handle_state_of_not_signup st req hns, ?_, ?_⟩
  · rw [dispatch_signin _ _ rfl stripQuery_lit_signin,
        signinH_eval st2 e p2 now ep he hp, hnof]
    simp [signinOK, respField, jsGet, List.lookup]
  · rw [dispatch_signin _ _ rfl stripQuery_lit_signin,
        signinH_eval st2 e p2 now ep he hp, hnof]
    intro hmem
    have hinv := stinv_of_reachable st2 hreach
    have hmem2 : uuid st2.ctr ∈ st2.saved.map (fun u => u.user_id) := hmem
    rw [hinv.saved_eq] at hmem2
    obtain ⟨u, hu, hue⟩ := List.mem_map.1 hmem2
    obtain ⟨k, hk, he2⟩ := hinv.ids_fresh u hu
    have : uuid k = uuid st2.ctr := by rw [← he2, hue]
    exact absurd this (uuid_ne_of_lt hk)

theorem only_signup_mutates_witness :
    ¬(("GET" : String) = "POST" ∧ stripQuery "/health" = "/api/auth/signup") ∧
    Reachable initState ∧ ("gh@no.io" : String) ≠ "" ∧ ("pw" : String) ≠ "" ∧
    ((handleRequest initState ⟨"GET", "/health", none, some (.obj []), "t", 0⟩).1.users
        = initState.users ∧
     (handleRequest initState ⟨"GET", "/health", none, some (.obj []), "t", 0⟩).1.saved
        = initState.saved) ∧
    (respField (handleRequest initState (signinReq "gh@no.io" "pw" "t" 0)).2 "user_id"
       = some (.str (uuid initState.ctr)) ∧
     (uuid initState.ctr) ∉
       ((handleRequest initState (signinReq "gh@no.io" "pw" "t" 0)).1.saved.map
         (fun u => u.user_id))) := by
  have h := only_signup_mutates initState initState
    ⟨"GET", "/health", none, some (.obj []), "t", 0⟩ "gh@no.io" "pw" "t" 0
    (by intro hc; exact absurd hc.1 (by decide)) ⟨[], rfl⟩ (by decide) (by decide) rfl
  exact ⟨by intro hc; exact absurd hc.1 (by decide), ⟨[], rfl⟩, by decide, by decide,
    h.1, h.2⟩

/-- Claim C5, counterexample: a signup whose body misses **both**
email and password (two missing fields) is answered 422 with a detail
list of exactly ONE fixed entry tagged `["body","field"]` — not one
entry per missing field as the claim states (which would require two
entries here). -/
theorem signup_422_single_entry_counterexample :
    (handleRequest initState
        ⟨"POST", "/api/auth/signup", none, some (.obj []), "t", 0⟩).2
      = ⟨422, some (.obj [("detail", missingFieldDetail)])⟩ ∧
    detailLen (handleRequest initState
        ⟨"POST", "/api/auth/signup", none, some (.obj []), "t", 0⟩).2 = 1 ∧
    detailLen (handleRequest initState
        ⟨"POST", "/api/auth/signup", none, some (.obj []), "t", 0⟩).2 ≠ 2 := by
  refine ⟨rfl, rfl, by decide⟩

/-- Claim C5 as amended: signup follows a two-tier validation policy —
if email or password is absent from the object body the response is
422 with a structured detail list holding exactly one fixed entry
(location tag `["body","field"]`, message "field required") regardless
of which or how many fields are missing; if both are present but one
is the empty string the response is 400 with the flat message "Email
and password are required". -/
theorem signup_two_tier_validation (st : ServerState)
    (fs : List (String × JVal)) (now : String) (ep : Int) :
    ((jsGet (.obj fs) "email" = none ∨ jsGet (.obj fs) "password" = none) →
      (handleRequest st ⟨"POST", "/api/auth/signup", none, some (.obj fs), now, ep⟩).2
        = ⟨422, some (.obj [("detail", missingFieldDetail)])⟩) ∧
    ((∃ v, jsGet (.obj fs) "email" = some v) →
     (∃ v, jsGet (.obj fs) "password" = some v) →
     (jsGet (.obj fs) "email" = some (.str "") ∨
      jsGet (.obj fs) "password" = some (.str "")) →
      (handleRequest st ⟨"POST", "/api/auth/signup", none, some (.obj fs), now, ep⟩).2
        = respEmptyFields) := by
  rw [dispatch_signup _ _ rfl stripQuery_lit_signup]
  constructor
  · intro hmiss
    have hc : ((jsGet (.obj fs) "email").isNone
        || (jsGet (.obj fs) "password").isNone) = true := by
      rcases hmiss with h | h <;> simp [h]
    unfold signupH
    dsimp only
    rw [hc]
    rfl
  · rintro ⟨v1, h1⟩ ⟨v2, h2⟩ hemp
    have hc : ((jsGet (.obj fs) "email").isNone
        || (jsGet (.obj fs) "password").isNone) = false := by
      simp [h1, h2]
    have ht : (!jsTruthyOpt (jsGet (.obj fs) "email")
        || !jsTruthyOpt (jsGet (.obj fs) "password")) = true := by
      rcases hemp with h | h <;> simp [h, jsTruthyOpt]
    unfold signupH
    dsimp only
    rw [hc, ht]
    rfl

theorem signup_two_tier_validation_witness :
    (jsGet (.obj []) "email" = none ∨ jsGet (.obj []) "password" = none) ∧
    (handleRequest initState
        ⟨"POST", "/api/auth/signup", none, some (.obj []), "t", 0⟩).2
      = ⟨422, some (.obj [("detail", missingFieldDetail)])⟩ ∧
    (∃ v, jsGet (.obj [("email", JVal.str ""), ("password", JVal.str "x")])
      "email" = some v) ∧
    (handleRequest initState ⟨"POST", "/api/auth/signup", none,
        some (.obj [("email", JVal.str ""), ("password", JVal.str "x")]), "t", 0⟩).2
      = respEmptyFields := by
  refine ⟨Or.inl rfl, ?_, ⟨JVal.str "", rfl⟩, ?_⟩
  · exact (signup_two_tier_validation initState [] "t" 0).1 (Or.inl rfl)
  · exact (signup_two_tier_validation initState
      [("email", JVal.str ""), ("password", JVal.str "x")] "t" 0).2
      ⟨JVal.str "", rfl⟩ ⟨JVal.str "x", rfl⟩ (Or.inl rfl)

/-- Claim C6: profile-fetch returns 401 with detail "Not
authenticated" if and only if the Authorization header is absent or
does not start with the bearer-scheme prefix; for every header value
starting with that prefix it returns 200, the token content never
being checked (the state, including every issued token, is
arbitrary). -/
theorem me_auth_header_iff (st : ServerState) (h : Option String)
    (now : String) (ep : Int) :
    (((handleRequest st (meReq h now ep)).2.status = 401 ∧
      respField (handleRequest st (meReq h now ep)).2 "detail"
        = some (.str "Not authenticated"))
      ↔ (∀ s, h = some s → strStartsWith s "Bearer " = false)) ∧
    (∀ s, h = some s → strStartsWith s "Bearer " = true →
      (handleRequest st (meReq h now ep)).2.status = 200) := by
  rw [dispatch_me _ _ rfl stripQuery_lit_me]
  by_cases hu : unauthHdr h = true
  · rw [meH_eval_unauth st h now ep hu]
    constructor
    · exact ⟨fun _ => (unauthHdr_iff h).1 hu,
        fun _ => ⟨rfl, by simp [respField, jsGet, List.lookup]⟩⟩
    · intro s hs hsw
      have := (unauthHdr_iff h).1 hu s hs
      rw [this] at hsw
      cases hsw
  · have hu2 : unauthHdr h = false := by
      simpa using hu
    rw [meH_eval_auth st h now ep hu2]
    have hniff : ¬ (∀ s, h = some s → strStartsWith s "Bearer " = false) := by
      intro hr
      rw [(unauthHdr_iff h).2 hr] at hu2
      cases hu2
    cases husers : st.users with
    | nil =>
      refine ⟨Iff.intro (fun hx => absurd hx.1 (by simp)) (fun hr => absurd hr hniff), ?_⟩
      intro s hs hsw
      rfl
    | cons u rest =>
      refine ⟨Iff.intro (fun hx => absurd hx.1 (by simp)) (fun hr => absurd hr hniff), ?_⟩
      intro s hs hsw
      rfl

theorem me_auth_header_iff_witness :
    ((handleRequest initState (meReq none "t" 0)).2.status = 401 ∧
      respField (handleRequest initState (meReq none "t" 0)).2 "detail"
        = some (.str "Not authenticated")) ∧
    strStartsWith "Bearer anything_at_all" "Bearer " = true ∧
    (handleRequest initState
      (meReq (some "Bearer anything_at_all") "t" 0)).2.status = 200 := by
  refine ⟨?_, by decide, ?_⟩
  · exact (me_auth_header_iff initState none "t" 0).1.2 (by intro s hs; cases hs)
  · exact (me_auth_header_iff initState (some "Bearer anything_at_all") "t" 0).2
      "Bearer anything_at_all" rfl (by decide)

/-- Claim C7: refresh returns 422 with detail "Refresh token required"
if and only if the body lacks refresh_token or carries it as the empty
string; for every non-empty token string it unconditionally returns
200 with a brand-new pair whose access_token differs from every
access token issued earlier in the process (for any state reachable
from any loaded snapshot), and the outcome is independent of the
submitted token value (no linkage checked). -/
theorem refresh_unconditional_rotation (us : List UserRecord)
    (st : ServerState) (rt : Option String) (s1 s2 now : String) (ep : Int)
    (hreach : ReachableFrom us st) (h1 : s1 ≠ "") (h2 : s2 ≠ "") :
    (((handleRequest st (refreshReq rt now ep)).2.status = 422 ∧
      respField (handleRequest st (refreshReq rt now ep)).2 "detail"
        = some (.str "Refresh token required"))
      ↔ (rt = none ∨ rt = some "")) ∧
    ((handleRequest st (refreshReq (some s1) now ep)).2.status = 200 ∧
     respField (handleRequest st (refreshReq (some s1) now ep)).2 "access_token"
       = some (.str ("mock_access_token_" ++ uuid st.ctr)) ∧
     ("mock_access_token_" ++ uuid st.ctr) ∉ st.issuedAccess ∧
     handleRequest st (refreshReq (some s1) now ep)
       = handleRequest st (refreshReq (some s2) now ep)) := by
  rw [dispatch_refresh _ _ rfl stripQuery_lit_refresh,
      dispatch_refresh _ _ rfl stripQuery_lit_refresh,
      dispatch_refresh _ _ rfl stripQuery_lit_refresh]
  constructor
  · cases rt with
    | none =>
      rw [refreshH_eval_missing st now ep]
      exact Iff.intro (fun _ => Or.inl rfl)
        (fun _ => ⟨rfl, by simp [respField, jsGet, List.lookup]⟩)
    | some s =>
      by_cases hs : s = ""
      · subst hs
        rw [refreshH_eval_empty st now ep]
        exact Iff.intro (fun _ => Or.inr rfl)
          (fun _ => ⟨rfl, by simp [respField, jsGet, List.lookup]⟩)
      · rw [refreshH_eval_ok st s now ep hs]
        constructor
        · intro hx
          exact absurd hx.1 (by simp)
        · intro hx
          rcases hx with hx | hx
          · cases hx
          · exact absurd (by injection hx) hs
  · rw [refreshH_eval_ok st s1 now ep h1, refreshH_eval_ok st s2 now ep h2]
    refine ⟨rfl, ?_, ?_, rfl⟩
    · simp [respField, jsGet, List.lookup, tokenPairJVal, generateTokens]
    · intro hmem
      obtain ⟨k, hk, he⟩ := tokinv_of_reachableFrom us st hreach _ hmem
      have : uuid st.ctr = uuid k := str_append_cancel he
      exact absurd (uuid_inj this).symm (Nat.ne_of_lt hk)

theorem refresh_unconditional_rotation_witness :
    ReachableFrom ([] : List UserRecord) initState ∧
    ("tok1" : String) ≠ "" ∧ ("tok2" : String) ≠ "" ∧
    (((handleRequest initState (refreshReq none "t" 0)).2.status = 422 ∧
      respField (handleRequest initState (refreshReq none "t" 0)).2 "detail"
        = some (.str "Refresh token required"))
      ↔ ((none : Option String) = none ∨ (none : Option String) = some "")) ∧
    (handleRequest initState (refreshReq (some "tok1") "t" 0)).2.status = 200 ∧
    ("mock_access_token_" ++ uuid initState.ctr) ∉ initState.issuedAccess ∧
    handleRequest initState (refreshReq (some "tok1") "t" 0)
      = handleRequest initState (refreshReq (some "tok2") "t" 0) := by
  have h := refresh_unconditional_rotation [] initState none "tok1" "tok2" "t" 0
    ⟨[], rfl⟩ (by decide) (by decide)
  exact ⟨⟨[], rfl⟩, by decide, by decide, h.1, h.2.1, h.2.2.2.1, h.2.2.2.2⟩

/-- Claim C8, counterexample: starting from the empty store, two
successful signups with the same email leave the collection holding
two distinct records with that email — email uniqueness across
signup-created records is NOT an invariant. -/
theorem email_uniqueness_counterexample :
    (handleRequest initState (signupReq "dup@x.io" "pw" "t" 0)).2.status = 200 ∧
    (handleRequest (step initState (signupReq "dup@x.io" "pw" "t" 0))
      (signupReq "dup@x.io" "pw" "t" 0)).2.status = 200 ∧
    ((run initState [signupReq "dup@x.io" "pw" "t" 0,
        signupReq "dup@x.io" "pw" "t" 0]).users.map (fun u => u.email))
      = [.str "dup@x.io", .str "dup@x.io"] ∧
    ¬ (((run initState [signupReq "dup@x.io" "pw" "t" 0,
        signupReq "dup@x.io" "pw" "t" 0]).users.map (fun u => u.email)).Nodup) := by
  refine ⟨rfl, rfl, rfl, ?_⟩
  intro hnd
  rw [show ((run initState [signupReq "dup@x.io" "pw" "t" 0,
      signupReq "dup@x.io" "pw" "t" 0]).users.map (fun u => u.email))
      = [.str "dup@x.io", .str "dup@x.io"] from rfl] at hnd
  simp [List.nodup_cons] at hnd

/-- Claim C8 as amended: in every state reachable from the empty
start, user_id is unique across stored records, and signin never
inserts the ghost record it fabricates; but email uniqueness does not
hold — a signup always appends a fresh record with the submitted
email, even when a record with that email already exists. -/
theorem user_id_unique_email_not (st st2 st3 : ServerState) (req : Request)
    (e p now : String) (ep : Int)
    (hreach : Reachable st)
    (hm : req.method = "POST") (hp : stripQuery req.url = "/api/auth/signin")
    (he : e ≠ "") (hpw : p ≠ "") :
    ((st.users.map (fun u => u.user_id)).Nodup) ∧
    ((handleRequest st2 req).1.users = st2.users) ∧
    ((handleRequest st3 (signupReq e p now ep)).1.users
       = st3.users ++ [⟨uuid st3.ctr, .str (localPart e), .str e, now,
           some true, some true, none⟩]) := by
  refine ⟨(stinv_of_reachable st hreach).ids_nodup, ?_, ?_⟩
  · rw [dispatch_signin _ _ hm hp]
    exact (signinH_state st2 req).1
  · rw [dispatch_signup _ _ rfl stripQuery_lit_signup,
        signupH_eval st3 e p now ep he hpw]
    rfl

theorem user_id_unique_email_not_witness :
    Reachable (step initState (signupReq "a@b.io" "pw" "t" 0)) ∧
    (((step initState (signupReq "a@b.io" "pw" "t" 0)).users.map
        (fun u => u.user_id)).Nodup) ∧
    ((handleRequest initState (signinReq "gg@hh.io" "pw" "t" 0)).1.users
       = initState.users) ∧
    ((handleRequest (step initState (signupReq "a@b.io" "pw" "t" 0))
        (signupReq "a@b.io" "pw2" "t2" 0)).1.users
       = (step initState (signupReq "a@b.io" "pw" "t" 0)).users
         ++ [⟨uuid (step initState (signupReq "a@b.io" "pw" "t" 0)).ctr,
              .str (localPart "a@b.io"), .str "a@b.io", "t2",
              some true, some true, none⟩]) := by
  have h := user_id_unique_email_not
    (step initState (signupReq "a@b.io" "pw" "t" 0)) initState
    (step initState (signupReq "a@b.io" "pw" "t" 0))
    (signinReq "gg@hh.io" "pw" "t" 0) "a@b.io" "pw2" "t2" 0
    ⟨[signupReq "a@b.io" "pw" "t" 0], rfl⟩ rfl stripQuery_lit_signin
    (by decide) (by decide)
  exact ⟨⟨[signupReq "a@b.io" "pw" "t" 0], rfl⟩, h.1, h.2.1, h.2.2⟩


/-- Claim C10, counterexample: for a stored record whose
email_verified field is present and false, the profile response
reports email_verified as true — `x || true` coerces a present false
to true, so the response does not equal the stored value of a present
field. -/
theorem me_boolean_counterexample :
    falseVerifiedRec.email_verified = some false ∧
    (handleRequest (initLoaded [falseVerifiedRec])
      (meReq (some "Bearer x") "t" 0)).2.status = 200 ∧
    respField (handleRequest (initLoaded [falseVerifiedRec])
      (meReq (some "Bearer x") "t" 0)).2 "email_verified"
      = some (.bool true) ∧
    some (.bool true) ≠ some (JVal.bool false) := by
  refine ⟨rfl, rfl, rfl, ?_⟩
  intro hc
  injection hc with hc2
  cases hc2

/-- Claim C10 as amended: every successful profile-fetch response
includes exactly the keys user_id, email, name, email_verified,
is_active, created_at and last_login_at, and email_verified and
is_active are always true in the response: a stored false is coerced
to true just like an absent field, and a stored true is passed
through. -/
theorem me_profile_schema (st : ServerState) (s now : String) (ep : Int)
    (hs : strStartsWith s "Bearer " = true) :
    (handleRequest st (meReq (some s) now ep)).2.status = 200 ∧
    (∃ j, (handleRequest st (meReq (some s) now ep)).2.body = some j ∧
      jKeys j = ["user_id", "email", "name", "email_verified", "is_active",
        "created_at", "last_login_at"]) ∧
    respField (handleRequest st (meReq (some s) now ep)).2 "email_verified"
      = some (.bool true) ∧
    respField (handleRequest st (meReq (some s) now ep)).2 "is_active"
      = some (.bool true) := by
  have hne : s ≠ "" := by
    intro hempty
    subst hempty
    rw [show strStartsWith "" "Bearer " = false from by decide] at hs
    cases hs
  have hu2 : unauthHdr (some s) = false := by
    simp [unauthHdr, hs, hne]
  rw [dispatch_me _ _ rfl stripQuery_lit_me, meH_eval_auth st (some s) now ep hu2]
  cases husers : st.users with
  | nil =>
    refine ⟨rfl, ⟨_, rfl, rfl⟩, ?_, ?_⟩ <;>
      simp [meProfile, respField, jsGet, List.lookup, jsOrTrue_true]
  | cons u rest =>
    refine ⟨rfl, ⟨_, rfl, ?_⟩, ?_, ?_⟩ <;>
      simp [meProfile, jKeys, respField, jsGet, List.lookup, jsOrTrue_true]

theorem me_profile_schema_witness :
    strStartsWith "Bearer zz" "Bearer " = true ∧
    (handleRequest initState (meReq (some "Bearer zz") "t" 0)).2.status = 200 ∧
    (∃ j, (handleRequest initState (meReq (some "Bearer zz") "t" 0)).2.body = some j ∧
      jKeys j = ["user_id", "email", "name", "email_verified", "is_active",
        "created_at", "last_login_at"]) ∧
    respField (handleRequest initState (meReq (some "Bearer zz") "t" 0)).2
      "email_verified" = some (.bool true) ∧
    respField (handleRequest initState (meReq (some "Bearer zz") "t" 0)).2
      "is_active" = some (.bool true) := by
  have h := me_profile_schema initState "Bearer zz" "t" 0 (by decide)
  exact ⟨by decide, h.1, h.2.1, h.2.2.1, h.2.2.2⟩
